import Mathlib

/-!
Shallow embedding of the two batch scripts of the image-to-video pipeline:
`generate-video.py` (class SimpleVideoGenerator) and `image-prompter.py`
(class PhotoPromptGenerator).  External effects (file reads, HTTP calls,
the remote task's status sequence, the download outcome) are supplied as an
explicit environment; the control flow, branch order and log emissions of
the Python code are translated statement by statement.
-/

/-- Severity-tagged log messages emitted by `generate-video.py`.  Each
constructor stands for one `logging.info`/`logging.error` call site:
`couldNotFindImage` = "Could not find image for ...", `creatingTask` =
"Creating video generation task for ...", `waitingForTask` = "Waiting for
task ... to complete", `taskStatus` = "Task status: ...", `videoUrl` =
"Video URL: ...", `noOutputUrl` = "No output url for ...", `downloadedOk` =
"Successfully downloaded video to ...", `downloadError` = "Error
downloading video: ...", `generationComplete` = "Video generation complete
for ...", `failedToDownload` = "Failed to download video for ...",
`noVideoUrlInOutput` = "No video URL in task output for ...", `taskFailed`
= "Task failed for ...", `errorProcessing` = "Error processing ...". -/
inductive LogMsg
  | couldNotFindImage
  | creatingTask
  | waitingForTask
  | taskStatus
  | videoUrl
  | noOutputUrl
  | downloadedOk
  | downloadError
  | generationComplete
  | failedToDownload
  | noVideoUrlInOutput
  | taskFailed
  | errorProcessing
deriving Repr, DecidableEq

/-- Which log messages come from `logging.error` call sites. -/
def LogMsg.isError : LogMsg → Bool
  | .couldNotFindImage => true
  | .noOutputUrl => true
  | .downloadError => true
  | .failedToDownload => true
  | .noVideoUrlInOutput => true
  | .taskFailed => true
  | .errorProcessing => true
  | _ => false

/-- `task.status not in ['SUCCEEDED', 'FAILED']` is the loop guard; a
status is terminal when it is one of those two strings. -/
def isTerminal (s : String) : Bool :=
  s == "SUCCEEDED" || s == "FAILED"

/-- The polling loop of `generate_video`: `cur` is the status held in
`task.status`, `rest` the statuses the remote end will return to the
successive `tasks.retrieve` calls made inside the loop.  Returns the first
terminal status together with the "Task status" log lines emitted on the
way, or `none` when the supplied status sequence never turns terminal
(the Python loop would still be running). -/
def pollLoop : String → List String → Option (String × List LogMsg)
  | cur, rest =>
    if isTerminal cur then some (cur, [])
    else
      match rest with
      | [] => none
      | s :: rest2 => (pollLoop s rest2).map (fun p => (p.1, LogMsg.taskStatus :: p.2))

/-- The status the poll phase ends on, given the list of statuses returned
by the successive `tasks.retrieve` calls (head = the retrieve right after
the initial 10-second sleep). -/
def pollFirst (sts : List String) : Option String :=
  match sts with
  | [] => none
  | s :: rest => (pollLoop s rest).map Prod.fst

/-- Index of the first terminal status in a retrieved-status sequence. -/
def firstTerminalIdx : List String → Option Nat
  | [] => none
  | s :: rest =>
    if isTerminal s then some 0 else (firstTerminalIdx rest).map (· + 1)

/-- Observable timing events of the poll phase: `sleep n` is a
`time.sleep(n)` call, `retrieve` a `tasks.retrieve` status query. -/
inductive Ev
  | sleep (n : Nat)
  | retrieve
deriving Repr, DecidableEq

/-- Events of the `while` loop itself: while `cur` is not terminal, sleep
10 seconds and retrieve the next status. -/
def loopEvents : String → List String → List Ev
  | cur, rest =>
    if isTerminal cur then []
    else
      match rest with
      | [] => []
      | s :: rest2 => Ev.sleep 10 :: Ev.retrieve :: loopEvents s rest2

/-- Everything `generate_video` does between task submission and leaving
the poll phase: one unconditional `time.sleep(10)`, one `tasks.retrieve`,
then the `while` loop. -/
def postSubmitEvents (sts : List String) : List Ev :=
  match sts with
  | [] => [Ev.sleep 10, Ev.retrieve]
  | s0 :: rest => Ev.sleep 10 :: Ev.retrieve :: loopEvents s0 rest

/-- `prompt_path.stem.replace('_prompt', '')`: Python `str.replace`
removes every (leftmost-first, non-overlapping) occurrence of the
substring `_prompt`, not only a trailing one. -/
def removePromptAll : List Char → List Char
  | '_' :: 'p' :: 'r' :: 'o' :: 'm' :: 'p' :: 't' :: rest => removePromptAll rest
  | c :: rest => c :: removePromptAll rest
  | [] => []

/-- State of the destination file `videos/<name>.mp4` for one work item:
`absent` = no file, `stale` = a file left over from an earlier run,
`partialData` = file opened `'wb'` by this run but the download broke off,
`complete` = fully downloaded by this run. -/
inductive FileState
  | absent
  | stale
  | partialData
  | complete
deriving Repr, DecidableEq

/-- Whether a file is present on disk in the given state. -/
def fileExists : FileState → Bool
  | .absent => false
  | _ => true

/-- Outcome of the HTTP interaction inside `download_video`: `reqError` =
`requests.get`/`raise_for_status` raises before the destination file is
opened; `streamError` = the chunked copy raises after `open(output_path,
'wb')` truncated/created the file; `ok` = every chunk written. -/
inductive DlOutcome
  | reqError
  | streamError
  | ok
deriving Repr, DecidableEq

/-- Result of `download_video`: its boolean return value, the resulting
state of the destination file, and the log lines it emits. -/
structure DlResult where
  ok : Bool
  file : FileState
  logs : List LogMsg
deriving Repr, DecidableEq

/-- `download_video(url, output_path)`: on `reqError` nothing was opened,
so the prior file state survives; on `streamError` the `'wb'` open already
truncated the destination, leaving partial data; on success the file is
complete and "Successfully downloaded" is logged.  Failures are caught
inside the method, logged, and turned into `False`. -/
def download_video (dl : DlOutcome) (pre : FileState) : DlResult :=
  match dl with
  | .reqError => ⟨false, pre, [LogMsg.downloadError]⟩
  | .streamError => ⟨false, FileState.partialData, [LogMsg.downloadError]⟩
  | .ok => ⟨true, FileState.complete, [LogMsg.downloadedOk]⟩

/-- Environment of one `generate_video(prompt_path)` call: `stem` is
`prompt_path.stem`; `promptRead` the content of the prompt file (`none` =
the read raises); `fs` the set of existing files, checked for the derived
image path; `imageRead` the image bytes (`none` = the open/read raises);
`createTask` the id returned by `image_to_video.create` (`none` = the call
raises); `statuses` the statuses returned by successive `tasks.retrieve`
calls; `output` the terminal task's `output` field (`none` = null);
`dl` the download outcome when a download is attempted. -/
structure Env where
  stem : String
  promptRead : Option String
  fs : List String
  imageRead : Option String
  createTask : Option String
  statuses : List String
  output : Option (List String)
  dl : DlOutcome
deriving Repr, DecidableEq

/-- `image_name = prompt_path.stem.replace('_prompt', '')`. -/
def image_name (e : Env) : String :=
  String.mk (removePromptAll e.stem.toList)

/-- `image_path = self.input_folder.parent / 'input-photos' /
f"{image_name}.jpg"` with `input_folder = "prompts"`. -/
def image_path (e : Env) : String :=
  "input-photos/" ++ image_name e ++ ".jpg"

/-- Per-item result of `generate_video`: the log lines emitted, the final
state of `videos/<name>.mp4`, whether `image_to_video.create` was invoked
successfully (a job exists remotely), and whether `download_video` was
called. -/
structure ItemResult where
  logs : List LogMsg
  file : FileState
  jobCreated : Bool
  downloadAttempted : Bool
deriving Repr, DecidableEq

/-- `generate_video(prompt_path)`, translated branch by branch.  The whole
body sits in `try/except`, so any raise inside it becomes an "Error
processing" log and a return; in particular, on SUCCEEDED with an empty or
null output list only the inner `if` branch assigns `video_url`, so the
subsequent `if video_url:` raises `UnboundLocalError`, which the outer
handler catches.  Returns `none` exactly when the poll loop never sees a
terminal status (the call would still be running). -/
def generate_video (e : Env) (pre : FileState) : Option ItemResult :=
  match e.promptRead with
  | none => some ⟨[LogMsg.errorProcessing], pre, false, false⟩
  | some _ =>
    if e.fs.contains (image_path e) = false then
      some ⟨[LogMsg.couldNotFindImage], pre, false, false⟩
    else
      match e.imageRead with
      | none => some ⟨[LogMsg.creatingTask, LogMsg.errorProcessing], pre, false, false⟩
      | some _ =>
        match e.createTask with
        | none => some ⟨[LogMsg.creatingTask, LogMsg.errorProcessing], pre, false, false⟩
        | some _ =>
          match e.statuses with
          | [] => none
          | s0 :: rest =>
            match pollLoop s0 rest with
            | none => none
            | some (t, pLogs) =>
              let preLogs := LogMsg.creatingTask :: LogMsg.waitingForTask :: pLogs
              if t == "SUCCEEDED" then
                match e.output with
                | some (u :: _) =>
                  if u.isEmpty then
                    some ⟨preLogs ++ [LogMsg.videoUrl, LogMsg.noVideoUrlInOutput],
                          pre, true, false⟩
                  else
                    let d := download_video e.dl pre
                    some ⟨preLogs ++ [LogMsg.videoUrl] ++ d.logs ++
                            [if d.ok then LogMsg.generationComplete
                             else LogMsg.failedToDownload],
                          d.file, true, true⟩
                | some [] =>
                  some ⟨preLogs ++ [LogMsg.noOutputUrl, LogMsg.errorProcessing],
                        pre, true, false⟩
                | none =>
                  some ⟨preLogs ++ [LogMsg.noOutputUrl, LogMsg.errorProcessing],
                        pre, true, false⟩
              else
                some ⟨preLogs ++ [LogMsg.taskFailed], pre, true, false⟩

/-- `process_all_prompts`: every `*_prompt.txt` file is handed to
`generate_video`, one after the other; nothing is skipped and nothing
escapes an item, so the batch result is the list of per-item results.
`none` when some item polls forever. -/
def process_all_prompts : List (Env × FileState) → Option (List ItemResult)
  | [] => some []
  | (e, pre) :: rest =>
    match generate_video e pre with
    | none => none
    | some r => (process_all_prompts rest).map (fun l => r :: l)

/-- The `RUNWAY_API_KEY` check of `SimpleVideoGenerator.__init__`:
`os.getenv` yields `none` when the variable is absent, and `if not
self.runway_key` also rejects the empty string. -/
def initGenerator (key : Option String) : Except String Unit :=
  match key with
  | none => Except.error "RUNWAY_API_KEY not found in environment variables"
  | some k =>
    if k.isEmpty then Except.error "RUNWAY_API_KEY not found in environment variables"
    else Except.ok ()

/-- Outcome of `main()`: whether the constructor succeeded, and the
per-item results produced (empty when startup failed, since `main`'s
`except` catches the `ValueError` before `process_all_prompts` runs). -/
structure RunOutcome where
  startupOk : Bool
  results : List ItemResult
deriving Repr, DecidableEq

/-- `main()` of `generate-video.py`: construct the generator, then process
all prompts; a constructor failure is caught in `main`'s own
`try/except`, logged, and nothing else happens. -/
def mainRun (key : Option String) (items : List (Env × FileState)) : Option RunOutcome :=
  match initGenerator key with
  | Except.error _ => some ⟨false, []⟩
  | Except.ok _ => (process_all_prompts items).map (fun l => ⟨true, l⟩)

/-- Log messages of `image-prompter.py`: `processing` = "Processing
...", `errGenerating` = "Error generating prompt for ...", `saved` =
"Saved prompt for ...", `errSaving` = "Error saving prompt for ...". -/
inductive PLog
  | processing
  | errGenerating
  | saved
  | errSaving
deriving Repr, DecidableEq

/-- Environment of one image handled by `process_photos`: `imageRead` is
the outcome of `encode_image` (`none` = the open/read raises — note this
call sits before the `try` of `get_image_prompt`); `apiResult` the
outcome of `chat.completions.create` plus field access (`none` = it
raises, `some c` = it returns with `message.content = c`, where `c =
none` models a null content); `saveOk` whether the `open/write` in
`save_prompt` succeeds. -/
structure PEnv where
  imageRead : Option String
  apiResult : Option (Option String)
  saveOk : Bool
deriving Repr, DecidableEq

/-- `get_image_prompt(image_path)`: `encode_image` runs before the `try`
block, so its failure propagates as an exception (`Except.error`); an API
failure is caught, logged, and turned into a `None` return; otherwise the
response content is returned together with no extra log. -/
def get_image_prompt (e : PEnv) : Except Unit (Option String × List PLog) :=
  match e.imageRead with
  | none => Except.error ()
  | some _ =>
    match e.apiResult with
    | none => Except.ok (none, [PLog.errGenerating])
    | some c => Except.ok (c, [])

/-- `save_prompt(image_name, prompt)`: write errors are caught inside the
method and logged; returns whether the file was written. -/
def save_prompt (saveOk : Bool) : Bool × List PLog :=
  if saveOk then (true, [PLog.saved]) else (false, [PLog.errSaving])

/-- Per-item result of the prompter loop body: log lines and whether the
`<name>_prompt.txt` file was written. -/
structure PItemResult where
  logs : List PLog
  fileWritten : Bool
deriving Repr, DecidableEq

/-- One iteration of the loop body of `process_photos`: log "Processing",
call `get_image_prompt`, and save its result when it is truthy (`if
prompt:` rejects both `None` and the empty string).  `none` = an
exception escaped the body (only `encode_image` can do that). -/
def process_photo (e : PEnv) : Option PItemResult :=
  match get_image_prompt e with
  | Except.error _ => none
  | Except.ok (prompt, ls) =>
    match prompt with
    | none => some ⟨PLog.processing :: ls, false⟩
    | some s =>
      if s.isEmpty then some ⟨PLog.processing :: ls, false⟩
      else
        let sv := save_prompt e.saveOk
        some ⟨PLog.processing :: ls ++ sv.2, sv.1⟩

/-- `process_photos`: iterate over the input images; the loop body has no
`try/except` of its own, so an exception escaping `get_image_prompt`
aborts the whole run (flag `false`), dropping all remaining items. -/
def process_photos : List PEnv → List PItemResult × Bool
  | [] => ([], true)
  | e :: rest =>
    match process_photo e with
    | none => ([], false)
    | some r =>
      let l := process_photos rest
      (r :: l.1, l.2)

/-! Lemmas about the poll phase. -/

theorem pollLoop_terminal (cur : String) (rest : List String)
    (h : isTerminal cur = true) : pollLoop cur rest = some (cur, []) := by
  unfold pollLoop
  simp [h]

theorem pollFirst_cons (s : String) (rest : List String) :
    pollFirst (s :: rest) = if isTerminal s then some s else pollFirst rest := by
  by_cases hs : isTerminal s = true
  · simp [pollFirst, pollLoop_terminal s rest hs, hs]
  · cases rest with
    | nil => simp [pollFirst, pollLoop, hs]
    | cons s1 r2 =>
      simp only [pollFirst, pollLoop, hs, Bool.false_eq_true, if_false]
      cases pollLoop s1 r2 with
      | none => simp
      | some p => simp

theorem pollLoop_logs (cur : String) (rest : List String) :
    ∀ t ls, pollLoop cur rest = some (t, ls) → ∀ m ∈ ls, m = LogMsg.taskStatus := by
  induction rest generalizing cur with
  | nil =>
    intro t ls h m hm
    by_cases hc : isTerminal cur = true <;> simp [pollLoop, hc] at h
    obtain ⟨-, h2⟩ := h
    subst h2
    simp at hm
  | cons s1 r2 ih =>
    intro t ls h m hm
    by_cases hc : isTerminal cur = true
    · simp [pollLoop, hc] at h
      obtain ⟨-, h2⟩ := h
      subst h2
      simp at hm
    · simp [pollLoop, hc] at h
      obtain ⟨a, b, hab, -, h2⟩ := h
      subst h2
      rcases List.mem_cons.mp hm with hm1 | hm2
      · exact hm1
      · exact ih s1 a b hab m hm2

theorem firstTerminalIdx_spec :
    ∀ sts k, firstTerminalIdx sts = some k →
      (∃ t, sts[k]? = some t ∧ isTerminal t = true) ∧
      (∀ i, i < k → ∀ t, sts[i]? = some t → isTerminal t = false) := by
  intro sts
  induction sts with
  | nil => intro k h; simp [firstTerminalIdx] at h
  | cons s rest ih =>
    intro k h
    by_cases hs : isTerminal s = true
    · simp [firstTerminalIdx, hs] at h
      subst h
      refine ⟨⟨s, by simp, hs⟩, ?_⟩
      intro i hi
      omega
    · simp [firstTerminalIdx, hs] at h
      obtain ⟨k2, hk2, hk⟩ := h
      subst hk
      have hrec := ih k2 hk2
      refine ⟨?_, ?_⟩
      · obtain ⟨t, ht, htt⟩ := hrec.1
        exact ⟨t, by simpa using ht, htt⟩
      · intro i hi t ht
        cases i with
        | zero =>
          simp at ht
          subst ht
          simpa using hs
        | succ j =>
          exact hrec.2 j (by omega) t (by simpa using ht)

theorem pollFirst_of_idx :
    ∀ sts k, firstTerminalIdx sts = some k → pollFirst sts = sts[k]? := by
  intro sts
  induction sts with
  | nil => intro k h; simp [firstTerminalIdx] at h
  | cons s rest ih =>
    intro k h
    by_cases hs : isTerminal s = true
    · simp [firstTerminalIdx, hs] at h
      subst h
      simp [pollFirst_cons, hs]
    · simp [firstTerminalIdx, hs] at h
      obtain ⟨k2, hk2, hk⟩ := h
      subst hk
      simpa [pollFirst_cons, hs] using ih k2 hk2

theorem pollFirst_none_of_idx_none :
    ∀ sts, firstTerminalIdx sts = none → pollFirst sts = none := by
  intro sts
  induction sts with
  | nil => intro h; simp [pollFirst]
  | cons s rest ih =>
    intro h
    by_cases hs : isTerminal s = true
    · simp [firstTerminalIdx, hs] at h
    · simp [firstTerminalIdx, hs] at h
      simpa [pollFirst_cons, hs] using ih h

theorem loopEvents_count :
    ∀ rest cur k, firstTerminalIdx (cur :: rest) = some k →
      (Ev.sleep 10 :: Ev.retrieve :: loopEvents cur rest).count Ev.retrieve = k + 1 := by
  intro rest
  induction rest with
  | nil =>
    intro cur k h
    by_cases hc : isTerminal cur = true
    · simp [firstTerminalIdx, hc] at h
      subst h
      simp [loopEvents, hc, List.count_cons]
    · simp [firstTerminalIdx, hc] at h
  | cons s1 r2 ih =>
    intro cur k h
    by_cases hc : isTerminal cur = true
    · simp [firstTerminalIdx, hc] at h
      subst h
      simp [loopEvents, hc, List.count_cons]
    · simp only [firstTerminalIdx, hc, Bool.false_eq_true, if_false, Option.map_eq_some'] at h
      obtain ⟨k2, hk2, hk⟩ := h
      subst hk
      have hrec := ih s1 k2 hk2
      simp only [loopEvents, hc, Bool.false_eq_true, if_false]
      have h1 : (Ev.sleep 10 == Ev.retrieve) = false := by decide
      have h2 : (Ev.retrieve == Ev.retrieve) = true := by decide
      simp [List.count_cons, h1, h2] at hrec ⊢
      omega

theorem postSubmit_count :
    ∀ sts k, firstTerminalIdx sts = some k →
      (postSubmitEvents sts).count Ev.retrieve = k + 1 := by
  intro sts k h
  cases sts with
  | nil => simp [firstTerminalIdx] at h
  | cons s0 rest => exact loopEvents_count rest s0 k h

theorem firstTerminalIdx_replicate_running (m : Nat) :
    firstTerminalIdx (List.replicate m "RUNNING" ++ ["SUCCEEDED"]) = some m := by
  induction m with
  | zero => decide
  | succ n ih =>
    have hrun : isTerminal "RUNNING" = false := by decide
    simp [List.replicate_succ, firstTerminalIdx, hrun, ih]

theorem loopEvents_replicate :
    ∀ rest cur, ∃ n, Ev.sleep 10 :: Ev.retrieve :: loopEvents cur rest =
      (List.replicate (n + 1) [Ev.sleep 10, Ev.retrieve]).flatten := by
  intro rest
  induction rest with
  | nil =>
    intro cur
    refine ⟨0, ?_⟩
    by_cases hc : isTerminal cur = true <;> simp [loopEvents, hc]
  | cons s1 r2 ih =>
    intro cur
    by_cases hc : isTerminal cur = true
    · exact ⟨0, by simp [loopEvents, hc]⟩
    · obtain ⟨n, hn⟩ := ih s1
      refine ⟨n + 1, ?_⟩
      simp only [loopEvents, hc, Bool.false_eq_true, if_false]
      rw [List.replicate_succ, List.flatten_cons]
      rw [← hn]
      rfl

/-- C4: the polling loop terminates exactly at the first retrieved status
in {SUCCEEDED, FAILED}: when the first terminal status sits at index `k`
of the retrieved-status sequence, the loop ends on exactly that status,
every earlier retrieved status is non-terminal, and exactly `k + 1`
status queries are performed (none after the terminal one); when no
retrieved status is terminal, the loop never stops. -/
theorem poll_stops_exactly_at_first_terminal :
    (∀ sts k, firstTerminalIdx sts = some k →
      (∃ t, sts[k]? = some t ∧ isTerminal t = true ∧ pollFirst sts = some t) ∧
      (∀ i, i < k → ∀ t, sts[i]? = some t → isTerminal t = false) ∧
      (postSubmitEvents sts).count Ev.retrieve = k + 1) ∧
    (∀ sts, firstTerminalIdx sts = none → pollFirst sts = none) := by
  constructor
  · intro sts k h
    obtain ⟨⟨t, ht, htt⟩, hbefore⟩ := firstTerminalIdx_spec sts k h
    refine ⟨⟨t, ht, htt, ?_⟩, hbefore, postSubmit_count sts k h⟩
    rw [pollFirst_of_idx sts k h, ht]
  · exact pollFirst_none_of_idx_none

/-- Witness for C4 at the concrete status sequence RUNNING, SUCCEEDED. -/
theorem poll_stops_exactly_at_first_terminal_witness :
    (∃ t, ["RUNNING", "SUCCEEDED"][1]? = some t ∧ isTerminal t = true ∧
       pollFirst ["RUNNING", "SUCCEEDED"] = some t) ∧
    (postSubmitEvents ["RUNNING", "SUCCEEDED"]).count Ev.retrieve = 2 := by
  have h := poll_stops_exactly_at_first_terminal.1 ["RUNNING", "SUCCEEDED"] 1 (by decide)
  exact ⟨h.1, h.2.2⟩

/-- C5: after submission the program sleeps 10 seconds exactly once
before the first status query, and between any two consecutive status
queries it sleeps exactly 10 seconds — the whole post-submission trace is
some number `n ≥ 1` of repetitions of [sleep 10, retrieve]; and there is
no maximum attempt count: for every bound `m` there is a terminating
status sequence on which more than `m` queries are made. -/
theorem poll_delay_fixed_ten_seconds_unbounded :
    (∀ sts, sts.any isTerminal = true →
      ∃ n, 1 ≤ n ∧
        postSubmitEvents sts = (List.replicate n [Ev.sleep 10, Ev.retrieve]).flatten) ∧
    (∀ m, ∃ sts, sts.any isTerminal = true ∧
      m < (postSubmitEvents sts).count Ev.retrieve) := by
  constructor
  · intro sts _
    cases sts with
    | nil => exact ⟨1, by omega, by simp [postSubmitEvents]⟩
    | cons s0 rest =>
      obtain ⟨n, hn⟩ := loopEvents_replicate rest s0
      exact ⟨n + 1, by omega, hn⟩
  · intro m
    refine ⟨List.replicate m "RUNNING" ++ ["SUCCEEDED"], ?_, ?_⟩
    · simp [isTerminal]
    · rw [postSubmit_count _ m (firstTerminalIdx_replicate_running m)]
      omega

/-- Witness for C5 at the concrete status sequence RUNNING, SUCCEEDED and
the bound 5. -/
theorem poll_delay_fixed_ten_seconds_unbounded_witness :
    (∃ n, 1 ≤ n ∧ postSubmitEvents ["RUNNING", "SUCCEEDED"] =
       (List.replicate n [Ev.sleep 10, Ev.retrieve]).flatten) ∧
    (∃ sts, sts.any isTerminal = true ∧
       5 < (postSubmitEvents sts).count Ev.retrieve) :=
  ⟨poll_delay_fixed_ten_seconds_unbounded.1 ["RUNNING", "SUCCEEDED"] (by decide),
   poll_delay_fixed_ten_seconds_unbounded.2 5⟩


theorem not_mem_poll_logs {pl : List LogMsg}
    (hpl : ∀ m ∈ pl, m = LogMsg.taskStatus) {x : LogMsg}
    (hx : ¬ x = LogMsg.taskStatus) : ¬ x ∈ pl :=
  fun h => hx (hpl x h)

/-- C9: whenever the download is interrupted by a request error (before or
after the destination file is opened), neither the "Successfully
downloaded" line nor the "Video generation complete" line is logged for
that item; and there is a run (a mid-stream failure) where nevertheless a
partially-written file remains on disk. -/
theorem download_interruption_no_success_signal :
    (∀ e pre r, ¬ e.dl = DlOutcome.ok → generate_video e pre = some r →
      ¬ LogMsg.downloadedOk ∈ r.logs ∧ ¬ LogMsg.generationComplete ∈ r.logs) ∧
    (∃ e r, e.dl = DlOutcome.streamError ∧
      generate_video e FileState.absent = some r ∧
      ¬ LogMsg.downloadedOk ∈ r.logs ∧ ¬ LogMsg.generationComplete ∈ r.logs ∧
      r.downloadAttempted = true ∧ fileExists r.file = true) := by
  constructor
  · intro e pre r hdl hgen
    obtain ⟨stem, pr, fs, ir, ct, sts, out, dl⟩ := e
    simp only at hdl
    cases pr with
    | none =>
      simp only [generate_video, Option.some.injEq] at hgen
      subst hgen
      simp
    | some p =>
      by_cases hc : fs.contains (image_path ⟨stem, some p, fs, ir, ct, sts, out, dl⟩) = false
      · simp only [generate_video, hc, if_true, Option.some.injEq] at hgen
        subst hgen
        simp
      · have hc2 : fs.contains (image_path ⟨stem, some p, fs, ir, ct, sts, out, dl⟩) = true := by
          simpa using hc
        cases ir with
        | none =>
          simp only [generate_video, hc2, Bool.true_eq_false, if_false,
            Option.some.injEq] at hgen
          subst hgen
          simp
        | some i =>
          cases ct with
          | none =>
            simp only [generate_video, hc2, Bool.true_eq_false, if_false,
              Option.some.injEq] at hgen
            subst hgen
            simp
          | some c =>
            cases sts with
            | nil =>
              simp only [generate_video, hc2, Bool.true_eq_false, if_false] at hgen
              exact Option.noConfusion hgen
            | cons s0 rest =>
              rcases hp : pollLoop s0 rest with - | ⟨t, pl⟩
              · simp only [generate_video, hc2, Bool.true_eq_false, if_false, hp] at hgen
                exact Option.noConfusion hgen
              · have hpl := pollLoop_logs s0 rest t pl hp
                have h1 : ¬ LogMsg.downloadedOk ∈ pl :=
                  not_mem_poll_logs hpl (by decide)
                have h2 : ¬ LogMsg.generationComplete ∈ pl :=
                  not_mem_poll_logs hpl (by decide)
                by_cases ht : (t == "SUCCEEDED") = true
                · cases out with
                  | none =>
                    simp only [generate_video, hc2, Bool.true_eq_false, if_false, hp,
                      ht, if_true, Option.some.injEq] at hgen
                    subst hgen
                    refine ⟨?_, ?_⟩ <;> simp [List.mem_cons, List.mem_append, h1, h2]
                  | some l =>
                    cases l with
                    | nil =>
                      simp only [generate_video, hc2, Bool.true_eq_false, if_false, hp,
                        ht, if_true, Option.some.injEq] at hgen
                      subst hgen
                      refine ⟨?_, ?_⟩ <;> simp [List.mem_cons, List.mem_append, h1, h2]
                    | cons u us =>
                      by_cases hu : u.isEmpty = true
                      · simp only [generate_video, hc2, Bool.true_eq_false, if_false, hp,
                          ht, hu, if_true, Option.some.injEq] at hgen
                        subst hgen
                        refine ⟨?_, ?_⟩ <;> simp [List.mem_cons, List.mem_append, h1, h2]
                      · have hu2 : u.isEmpty = false := by simpa using hu
                        cases dl with
                        | ok => exact absurd rfl hdl
                        | reqError =>
                          simp only [generate_video, hc2, Bool.true_eq_false,
                            Bool.false_eq_true, if_false, hp, ht, hu2, if_true,
                            download_video, Option.some.injEq] at hgen
                          subst hgen
                          refine ⟨?_, ?_⟩ <;>
                            simp [List.mem_cons, List.mem_append, h1, h2]
                        | streamError =>
                          simp only [generate_video, hc2, Bool.true_eq_false,
                            Bool.false_eq_true, if_false, hp, ht, hu2, if_true,
                            download_video, Option.some.injEq] at hgen
                          subst hgen
                          refine ⟨?_, ?_⟩ <;>
                            simp [List.mem_cons, List.mem_append, h1, h2]
                · have ht2 : (t == "SUCCEEDED") = false := by simpa using ht
                  simp only [generate_video, hc2, Bool.true_eq_false, Bool.false_eq_true,
                    if_false, hp, ht2, Option.some.injEq] at hgen
                  subst hgen
                  refine ⟨?_, ?_⟩ <;> simp [List.mem_cons, List.mem_append, h1, h2]
  · exact ⟨⟨"clip_prompt", some "p", ["input-photos/clip.jpg"], some "b", some "t",
      ["SUCCEEDED"], some ["http"], DlOutcome.streamError⟩,
      ⟨[LogMsg.creatingTask, LogMsg.waitingForTask, LogMsg.videoUrl,
        LogMsg.downloadError, LogMsg.failedToDownload],
       FileState.partialData, true, true⟩,
      rfl, by decide, by decide, by decide, by decide, by decide⟩

/-- Witness for C9 at a concrete item whose download request fails. -/
theorem download_interruption_no_success_signal_witness :
    ¬ LogMsg.downloadedOk ∈
        [LogMsg.creatingTask, LogMsg.waitingForTask, LogMsg.videoUrl,
         LogMsg.downloadError, LogMsg.failedToDownload] ∧
    ¬ LogMsg.generationComplete ∈
        [LogMsg.creatingTask, LogMsg.waitingForTask, LogMsg.videoUrl,
         LogMsg.downloadError, LogMsg.failedToDownload] :=
  download_interruption_no_success_signal.1
    ⟨"clip_prompt", some "p", ["input-photos/clip.jpg"], some "b", some "t",
     ["SUCCEEDED"], some ["http"], DlOutcome.reqError⟩
    FileState.absent
    ⟨[LogMsg.creatingTask, LogMsg.waitingForTask, LogMsg.videoUrl,
      LogMsg.downloadError, LogMsg.failedToDownload],
     FileState.absent, true, true⟩
    (by decide) (by decide)

/-- C1: a job that reaches SUCCEEDED with an empty or null output list is
treated as an error condition: the "No output url" error is logged and the
subsequent `if video_url:` raises, adding an "Error processing" log; no
download is attempted; the job is never reclassified (the "Task failed"
branch is not taken, its output file state is untouched); and the batch
moves on to the next item. -/
theorem succeeded_empty_output_is_error_but_kept (e : Env) (pre : FileState)
    (p i c : String)
    (hp : e.promptRead = some p)
    (himg : e.fs.contains (image_path e) = true)
    (hi : e.imageRead = some i) (hc : e.createTask = some c)
    (hterm : pollFirst e.statuses = some "SUCCEEDED")
    (hout : e.output = none ∨ e.output = some []) :
    ∃ r, generate_video e pre = some r ∧
      LogMsg.noOutputUrl ∈ r.logs ∧ LogMsg.errorProcessing ∈ r.logs ∧
      (∃ m ∈ r.logs, m.isError = true) ∧
      r.downloadAttempted = false ∧
      ¬ LogMsg.taskFailed ∈ r.logs ∧
      r.file = pre ∧
      (∀ rest, process_all_prompts ((e, pre) :: rest) =
        (process_all_prompts rest).map (fun l => r :: l)) := by
  obtain ⟨stem, pr, fs, ir, ct, sts, out, dl⟩ := e
  simp only at hp himg hi hc hterm hout
  subst hp hi hc
  cases sts with
  | nil => simp [pollFirst] at hterm
  | cons s0 rest =>
    simp only [pollFirst, Option.map_eq_some'] at hterm
    obtain ⟨⟨t, pl⟩, hpoll, htf⟩ := hterm
    simp only at htf
    subst htf
    have hpl := pollLoop_logs s0 rest "SUCCEEDED" pl hpoll
    have hgen : generate_video
        ⟨stem, some p, fs, some i, some c, s0 :: rest, out, dl⟩ pre =
        some ⟨LogMsg.creatingTask :: LogMsg.waitingForTask :: pl ++
                [LogMsg.noOutputUrl, LogMsg.errorProcessing], pre, true, false⟩ := by
      rcases hout with h | h <;>
        (subst h
         simp only [generate_video, himg, Bool.true_eq_false, if_false, hpoll]
         simp)
    refine ⟨_, hgen, ?_, ?_, ?_, rfl, ?_, rfl, ?_⟩
    · simp
    · simp
    · exact ⟨LogMsg.noOutputUrl, by simp, rfl⟩
    · have h3 : ¬ LogMsg.taskFailed ∈ pl := not_mem_poll_logs hpl (by decide)
      simp [List.mem_cons, List.mem_append, h3]
    · intro rest2
      simp only [process_all_prompts, hgen]

/-- Witness for C1 at a concrete SUCCEEDED job with an empty output list. -/
theorem succeeded_empty_output_is_error_but_kept_witness :
    ∃ r, generate_video
        ⟨"clip_prompt", some "p", ["input-photos/clip.jpg"], some "b", some "t",
         ["SUCCEEDED"], some [], DlOutcome.reqError⟩ FileState.absent = some r ∧
      LogMsg.noOutputUrl ∈ r.logs ∧ LogMsg.errorProcessing ∈ r.logs ∧
      (∃ m ∈ r.logs, m.isError = true) ∧
      r.downloadAttempted = false ∧
      ¬ LogMsg.taskFailed ∈ r.logs ∧
      r.file = FileState.absent ∧
      (∀ rest, process_all_prompts
          ((⟨"clip_prompt", some "p", ["input-photos/clip.jpg"], some "b", some "t",
             ["SUCCEEDED"], some [], DlOutcome.reqError⟩, FileState.absent) :: rest) =
        (process_all_prompts rest).map (fun l => r :: l)) :=
  succeeded_empty_output_is_error_but_kept _ _ "p" "b" "t" rfl (by decide) rfl rfl
    (by decide) (Or.inr rfl)

/-- Counterexample to C2 as stated: a job that reaches SUCCEEDED with a
non-empty output list but whose download HTTP request fails leaves no
`<name>.mp4` on disk, so "file exists iff SUCCEEDED with non-empty
output" is false on the code. -/
theorem video_file_iff_succeeded_counterexample :
    ¬ (∀ e pre r, generate_video e pre = some r →
        (fileExists r.file = true ↔
          (pollFirst e.statuses = some "SUCCEEDED" ∧
           ∃ u us, e.output = some (u :: us)))) := by
  intro h
  have h1 := h ⟨"clip_prompt", some "p", ["input-photos/clip.jpg"], some "b", some "t",
      ["SUCCEEDED"], some ["http"], DlOutcome.reqError⟩ FileState.absent
      ⟨[LogMsg.creatingTask, LogMsg.waitingForTask, LogMsg.videoUrl,
        LogMsg.downloadError, LogMsg.failedToDownload], FileState.absent, true, true⟩
      (by decide)
  have h2 := h1.mpr ⟨by decide, "http", [], rfl⟩
  exact absurd h2 (by decide)

/-- C2 (amended): for a prompt file with a matching companion image and no
pre-existing output file, `<name>.mp4` exists after processing iff the job
reached SUCCEEDED with a non-empty output list whose first URL is
non-empty and the download HTTP request did not fail before the
destination file was opened. -/
theorem video_file_iff_succeeded_nonempty_download (e : Env) (r : ItemResult)
    (p i c : String)
    (hp : e.promptRead = some p)
    (himg : e.fs.contains (image_path e) = true)
    (hi : e.imageRead = some i) (hc : e.createTask = some c)
    (hgen : generate_video e FileState.absent = some r) :
    fileExists r.file = true ↔
      (pollFirst e.statuses = some "SUCCEEDED" ∧
       (∃ u us, e.output = some (u :: us) ∧ u.isEmpty = false) ∧
       ¬ e.dl = DlOutcome.reqError) := by
  obtain ⟨stem, pr, fs, ir, ct, sts, out, dl⟩ := e
  simp only at hp himg hi hc hgen ⊢
  subst hp hi hc
  cases sts with
  | nil =>
    simp only [generate_video, himg, Bool.true_eq_false, if_false] at hgen
    exact Option.noConfusion hgen
  | cons s0 rest =>
    rcases hpoll : pollLoop s0 rest with - | ⟨t, pl⟩
    · simp only [generate_video, himg, Bool.true_eq_false, if_false, hpoll] at hgen
      exact Option.noConfusion hgen
    · have hpf : pollFirst (s0 :: rest) = some t := by
        simp [pollFirst, hpoll]
      by_cases ht : (t == "SUCCEEDED") = true
      · have htEq : t = "SUCCEEDED" := by simpa using ht
        subst htEq
        cases out with
        | none =>
          simp only [generate_video, himg, Bool.true_eq_false, if_false, hpoll,
            ht, if_true, Option.some.injEq] at hgen
          subst hgen
          simp only [fileExists]
          constructor
          · intro hfalse
            exact absurd hfalse (by decide)
          · rintro ⟨-, ⟨u, us, hsome, -⟩, -⟩
            exact Option.noConfusion hsome
        | some l =>
          cases l with
          | nil =>
            simp only [generate_video, himg, Bool.true_eq_false, if_false, hpoll,
              ht, if_true, Option.some.injEq] at hgen
            subst hgen
            simp only [fileExists]
            constructor
            · intro hfalse
              exact absurd hfalse (by decide)
            · rintro ⟨-, ⟨u, us, hsome, -⟩, -⟩
              simp at hsome
          | cons u us =>
            by_cases hu : u.isEmpty = true
            · simp only [generate_video, himg, Bool.true_eq_false, if_false, hpoll,
                ht, hu, if_true, Option.some.injEq] at hgen
              subst hgen
              simp only [fileExists]
              constructor
              · intro hfalse
                exact absurd hfalse (by decide)
              · rintro ⟨-, ⟨u2, us2, hsome, hne⟩, -⟩
                simp only [Option.some.injEq, List.cons.injEq] at hsome
                obtain ⟨hu2, -⟩ := hsome
                subst hu2
                rw [hu] at hne
                exact Bool.noConfusion hne
            · have hu2 : u.isEmpty = false := by simpa using hu
              cases dl with
              | reqError =>
                simp only [generate_video, himg, Bool.true_eq_false,
                  Bool.false_eq_true, if_false, hpoll, ht, hu2, if_true,
                  download_video, Option.some.injEq] at hgen
                subst hgen
                simp only [fileExists]
                constructor
                · intro hfalse
                  exact absurd hfalse (by decide)
                · rintro ⟨-, -, hdl⟩
                  simp at hdl
              | streamError =>
                simp only [generate_video, himg, Bool.true_eq_false,
                  Bool.false_eq_true, if_false, hpoll, ht, hu2, if_true,
                  download_video, Option.some.injEq] at hgen
                subst hgen
                constructor
                · intro _
                  exact ⟨hpf, ⟨u, us, rfl, hu2⟩, by simp⟩
                · intro _
                  rfl
              | ok =>
                simp only [generate_video, himg, Bool.true_eq_false,
                  Bool.false_eq_true, if_false, hpoll, ht, hu2, if_true,
                  download_video, Option.some.injEq] at hgen
                subst hgen
                constructor
                · intro _
                  exact ⟨hpf, ⟨u, us, rfl, hu2⟩, by simp⟩
                · intro _
                  rfl
      · have ht2 : (t == "SUCCEEDED") = false := by simpa using ht
        simp only [generate_video, himg, Bool.true_eq_false, Bool.false_eq_true,
          if_false, hpoll, ht2, Option.some.injEq] at hgen
        subst hgen
        simp only [fileExists]
        constructor
        · intro hfalse
          exact absurd hfalse (by decide)
        · rintro ⟨hsucc, -, -⟩
          rw [hpf] at hsucc
          simp only [Option.some.injEq] at hsucc
          subst hsucc
          simp at ht2

/-- Witness for the amended C2 at a concrete fully-successful item. -/
theorem video_file_iff_succeeded_nonempty_download_witness :
    fileExists FileState.complete = true ↔
      (pollFirst ["SUCCEEDED"] = some "SUCCEEDED" ∧
       (∃ u us, (some ["http"] : Option (List String)) = some (u :: us) ∧
          u.isEmpty = false) ∧
       ¬ DlOutcome.ok = DlOutcome.reqError) :=
  video_file_iff_succeeded_nonempty_download
    ⟨"clip_prompt", some "p", ["input-photos/clip.jpg"], some "b", some "t",
     ["SUCCEEDED"], some ["http"], DlOutcome.ok⟩
    ⟨[LogMsg.creatingTask, LogMsg.waitingForTask, LogMsg.videoUrl,
      LogMsg.downloadedOk, LogMsg.generationComplete],
     FileState.complete, true, true⟩
    "p" "b" "t" rfl (by decide) rfl rfl (by decide)

/-- The parts of a per-item outcome that do not mention the destination
file: log lines, whether a job was created, whether a download was
attempted. -/
def itemAction (r : ItemResult) : List LogMsg × Bool × Bool :=
  (r.logs, r.jobCreated, r.downloadAttempted)

/-- C10: re-running the batch memoizes nothing — everything
`generate_video` does except the final file state is independent of
whether `videos/<name>.mp4` already exists; a job is submitted for every
readable prompt file with an existing image regardless of the prior file;
and a successful download ends with the destination holding the freshly
downloaded content (the `'wb'` open overwrites whatever was there). -/
theorem rerun_no_skip_and_overwrite :
    (∀ e pre pre', (generate_video e pre).map itemAction =
        (generate_video e pre').map itemAction) ∧
    (∀ e pre r p i c, e.promptRead = some p →
        e.fs.contains (image_path e) = true →
        e.imageRead = some i → e.createTask = some c →
        generate_video e pre = some r → r.jobCreated = true) ∧
    (∀ e pre r, generate_video e pre = some r → r.downloadAttempted = true →
        e.dl = DlOutcome.ok → r.file = FileState.complete) := by
  refine ⟨?_, ?_, ?_⟩
  · intro e pre pre'
    obtain ⟨stem, pr, fs, ir, ct, sts, out, dl⟩ := e
    unfold generate_video
    repeat' split
    all_goals try rfl
    all_goals (cases dl <;> rfl)
  · intro e pre r p i c hp himg hi hc hgen
    obtain ⟨stem, pr, fs, ir, ct, sts, out, dl⟩ := e
    simp only at hp himg hi hc
    subst hp hi hc
    unfold generate_video at hgen
    repeat' split at hgen
    all_goals first
      | exact Option.noConfusion hgen
      | (injection hgen with h; subst h; rfl)
      | simp_all
  · intro e pre r hgen hda hdl
    obtain ⟨stem, pr, fs, ir, ct, sts, out, dl⟩ := e
    simp only at hdl
    subst hdl
    unfold generate_video at hgen
    repeat' split at hgen
    all_goals first
      | exact Option.noConfusion hgen
      | (injection hgen with h; subst h; simp_all [download_video])

/-- Witness for C10 at a concrete item with a pre-existing video file. -/
theorem rerun_no_skip_and_overwrite_witness :
    ((generate_video
        ⟨"clip_prompt", some "p", ["input-photos/clip.jpg"], some "b", some "t",
         ["SUCCEEDED"], some ["http"], DlOutcome.ok⟩ FileState.stale).map itemAction =
      (generate_video
        ⟨"clip_prompt", some "p", ["input-photos/clip.jpg"], some "b", some "t",
         ["SUCCEEDED"], some ["http"], DlOutcome.ok⟩ FileState.absent).map itemAction) ∧
    (⟨[LogMsg.creatingTask, LogMsg.waitingForTask, LogMsg.videoUrl,
       LogMsg.downloadedOk, LogMsg.generationComplete],
      FileState.complete, true, true⟩ : ItemResult).jobCreated = true ∧
    (⟨[LogMsg.creatingTask, LogMsg.waitingForTask, LogMsg.videoUrl,
       LogMsg.downloadedOk, LogMsg.generationComplete],
      FileState.complete, true, true⟩ : ItemResult).file = FileState.complete :=
  ⟨rerun_no_skip_and_overwrite.1 _ FileState.stale FileState.absent,
   rerun_no_skip_and_overwrite.2.1
     ⟨"clip_prompt", some "p", ["input-photos/clip.jpg"], some "b", some "t",
      ["SUCCEEDED"], some ["http"], DlOutcome.ok⟩ FileState.stale _
     "p" "b" "t" rfl (by decide) rfl rfl (by decide),
   rerun_no_skip_and_overwrite.2.2
     ⟨"clip_prompt", some "p", ["input-photos/clip.jpg"], some "b", some "t",
      ["SUCCEEDED"], some ["http"], DlOutcome.ok⟩ FileState.stale _
     (by decide) rfl rfl⟩

/-- Modelled from the claim's wording for comparison with the code's
`image_name`: "the prompt file's stem with the `_prompt` suffix removed",
i.e. one trailing occurrence stripped. -/
def claimImageName (stem : String) : String :=
  let cs := stem.toList
  if List.isSuffixOf ['_', 'p', 'r', 'o', 'm', 'p', 't'] cs then
    String.mk (cs.take (cs.length - 7))
  else stem

/-- Counterexample to C7 as stated: for the prompt stem
`x_prompt_prompt` the claim's derivation (suffix strip) yields
`x_prompt`, whose image `input-photos/x_prompt.jpg` does not exist, yet
the code's `replace('_prompt', '')` yields `x`, finds
`input-photos/x.jpg`, and creates a job anyway. -/
theorem missing_image_no_job_counterexample :
    ¬ (∀ e pre r,
        e.fs.contains ("input-photos/" ++ claimImageName e.stem ++ ".jpg") = false →
        generate_video e pre = some r →
        r.jobCreated = false ∧ ∃ m ∈ r.logs, m.isError = true) := by
  intro h
  have h1 := h ⟨"x_prompt_prompt", some "p", ["input-photos/x.jpg"], some "b",
      some "t", ["FAILED"], none, DlOutcome.ok⟩ FileState.absent
      ⟨[LogMsg.creatingTask, LogMsg.waitingForTask, LogMsg.taskFailed],
       FileState.absent, true, false⟩
      (by decide) (by decide)
  exact absurd h1.1 (by decide)

/-- C7 (amended): for every prompt file whose companion image
`input-photos/<name>.jpg` — where <name> is the stem with every
occurrence of the substring `_prompt` removed, as the code's
`str.replace` does — does not exist, no job is created and an error-level
message is logged. -/
theorem missing_image_no_job_error_logged (e : Env) (pre : FileState)
    (himg : e.fs.contains (image_path e) = false) :
    ∃ r, generate_video e pre = some r ∧ r.jobCreated = false ∧
      ∃ m ∈ r.logs, m.isError = true := by
  obtain ⟨stem, pr, fs, ir, ct, sts, out, dl⟩ := e
  simp only at himg
  cases pr with
  | none =>
    exact ⟨⟨[LogMsg.errorProcessing], pre, false, false⟩, rfl, rfl,
      LogMsg.errorProcessing, by simp, rfl⟩
  | some p =>
    refine ⟨⟨[LogMsg.couldNotFindImage], pre, false, false⟩, ?_, rfl,
      LogMsg.couldNotFindImage, by simp, rfl⟩
    simp only [generate_video]
    rw [if_pos himg]

/-- Witness for the amended C7 at a concrete item with no companion
image on disk. -/
theorem missing_image_no_job_error_logged_witness :
    ∃ r, generate_video
        ⟨"clip_prompt", some "p", [], some "b", some "t", ["SUCCEEDED"],
         some ["http"], DlOutcome.ok⟩ FileState.absent = some r ∧
      r.jobCreated = false ∧ ∃ m ∈ r.logs, m.isError = true :=
  missing_image_no_job_error_logged _ _ (by decide)

/-- C6: when `RUNWAY_API_KEY` is absent from the environment the
constructor raises, `main`'s handler catches it, and the run ends with no
item processed: no prompt file read, no job submitted, no file written —
for every possible batch the outcome is startup failure with an empty
result list. -/
theorem missing_api_key_fatal_before_processing (key : Option String)
    (hkey : key = none) :
    (∃ msg, initGenerator key = Except.error msg) ∧
    ∀ items, mainRun key items = some ⟨false, []⟩ := by
  subst hkey
  exact ⟨⟨_, rfl⟩, fun items => rfl⟩

/-- Witness for C6 with the variable absent and a non-trivial batch. -/
theorem missing_api_key_fatal_before_processing_witness :
    (∃ msg, initGenerator none = Except.error msg) ∧
    ∀ items, mainRun none items = some ⟨false, []⟩ :=
  missing_api_key_fatal_before_processing none rfl

theorem pollLoop_isSome_of_any :
    ∀ rest cur, (cur :: rest).any isTerminal = true →
      ∃ t pl, pollLoop cur rest = some (t, pl) := by
  intro rest
  induction rest with
  | nil =>
    intro cur h
    simp only [List.any_cons, List.any_nil, Bool.or_false] at h
    exact ⟨cur, [], pollLoop_terminal cur [] h⟩
  | cons s1 r2 ih =>
    intro cur h
    by_cases hc : isTerminal cur = true
    · exact ⟨cur, [], pollLoop_terminal cur (s1 :: r2) hc⟩
    · have hcf : isTerminal cur = false := by simpa using hc
      have h2 : (s1 :: r2).any isTerminal = true := by
        simp only [List.any_cons] at h ⊢
        rcases Bool.or_eq_true_iff.mp h with h3 | h3
        · rw [h3] at hcf
          exact Bool.noConfusion hcf
        · exact h3
      obtain ⟨t, pl, hp⟩ := ih s1 h2
      refine ⟨t, LogMsg.taskStatus :: pl, ?_⟩
      unfold pollLoop
      simp [hcf, hp]

theorem generate_video_isSome (e : Env) (pre : FileState)
    (h : e.statuses.any isTerminal = true) :
    (generate_video e pre).isSome = true := by
  obtain ⟨stem, pr, fs, ir, ct, sts, out, dl⟩ := e
  simp only at h
  cases sts with
  | nil => simp at h
  | cons s0 rest =>
    obtain ⟨t, pl, hp⟩ := pollLoop_isSome_of_any rest s0 h
    unfold generate_video
    repeat' split
    all_goals try rfl
    all_goals simp_all

/-- Counterexample to C3 as stated: in the prompt batch, a failure while
reading/encoding the image happens before the `try` block of
`get_image_prompt`, so the exception escapes the loop body and aborts the
whole run — with a failing first item, a perfectly fine second item is
never processed. -/
theorem per_item_isolation_counterexample :
    ¬ (∀ items : List PEnv,
        (process_photos items).1.length = items.length ∧
        (process_photos items).2 = true) := by
  intro h
  have h1 := h [⟨none, none, true⟩, ⟨some "i", some (some "text"), true⟩]
  exact absurd h1.1 (by decide)

/-- C3 (amended): in the video batch every per-item failure is caught by
`generate_video`'s own `try/except` and logged — every item that does not
end in the "Video generation complete" success message carries an
error-level log line — and the batch handles all items (whose poll
terminates); in the prompt batch the same holds for vision-API failures
(logged "Error generating prompt") and save failures (logged "Error
saving prompt") as long as every image read succeeds, but an image-read
failure escapes the per-item boundary unlogged and aborts the run,
dropping all remaining items. -/
theorem per_item_isolation_amended :
    (∀ items : List (Env × FileState),
      (∀ it ∈ items, (it.1).statuses.any isTerminal = true) →
      ∃ l, process_all_prompts items = some l ∧ l.length = items.length) ∧
    (∀ e pre r, generate_video e pre = some r →
      ¬ LogMsg.generationComplete ∈ r.logs → ∃ m ∈ r.logs, m.isError = true) ∧
    (∀ items : List PEnv, (∀ e ∈ items, ¬ e.imageRead = none) →
      (process_photos items).1.length = items.length ∧
      (process_photos items).2 = true) ∧
    (∀ e r, process_photo e = some r → e.apiResult = none →
      PLog.errGenerating ∈ r.logs) ∧
    (∀ e r s, process_photo e = some r → e.apiResult = some (some s) →
      s.isEmpty = false → e.saveOk = false → PLog.errSaving ∈ r.logs) ∧
    (∀ e rest, e.imageRead = none → process_photos (e :: rest) = ([], false)) := by
  refine ⟨?_, ?_, ?_, ?_, ?_, ?_⟩
  · intro items hterm
    induction items with
    | nil => exact ⟨[], rfl, rfl⟩
    | cons it rest ih =>
      obtain ⟨l, hl, hlen⟩ := ih (fun x hx => hterm x (List.mem_cons_of_mem _ hx))
      have h1 := generate_video_isSome it.1 it.2 (hterm it (List.mem_cons_self _ _))
      obtain ⟨r, hr⟩ := Option.isSome_iff_exists.mp h1
      refine ⟨r :: l, ?_, by simp [hlen]⟩
      obtain ⟨e, pre⟩ := it
      simp only at hr
      simp [process_all_prompts, hr, hl]
  · intro e pre r hgen hnc
    obtain ⟨stem, pr, fs, ir, ct, sts, out, dl⟩ := e
    cases pr with
    | none =>
      simp only [generate_video, Option.some.injEq] at hgen
      subst hgen
      exact ⟨LogMsg.errorProcessing, by simp, rfl⟩
    | some p =>
      by_cases hc : fs.contains (image_path ⟨stem, some p, fs, ir, ct, sts, out, dl⟩) = false
      · simp only [generate_video, hc, if_true, Option.some.injEq] at hgen
        subst hgen
        exact ⟨LogMsg.couldNotFindImage, by simp, rfl⟩
      · have hc2 : fs.contains (image_path ⟨stem, some p, fs, ir, ct, sts, out, dl⟩) = true := by
          simpa using hc
        cases ir with
        | none =>
          simp only [generate_video, hc2, Bool.true_eq_false, if_false,
            Option.some.injEq] at hgen
          subst hgen
          exact ⟨LogMsg.errorProcessing, by simp, rfl⟩
        | some i =>
          cases ct with
          | none =>
            simp only [generate_video, hc2, Bool.true_eq_false, if_false,
              Option.some.injEq] at hgen
            subst hgen
            exact ⟨LogMsg.errorProcessing, by simp, rfl⟩
          | some c =>
            cases sts with
            | nil =>
              simp only [generate_video, hc2, Bool.true_eq_false, if_false] at hgen
              exact Option.noConfusion hgen
            | cons s0 rest =>
              rcases hp : pollLoop s0 rest with - | ⟨t, pl⟩
              · simp only [generate_video, hc2, Bool.true_eq_false, if_false,
                  hp] at hgen
                exact Option.noConfusion hgen
              · by_cases ht : (t == "SUCCEEDED") = true
                · cases out with
                  | none =>
                    simp only [generate_video, hc2, Bool.true_eq_false, if_false, hp,
                      ht, if_true, Option.some.injEq] at hgen
                    subst hgen
                    exact ⟨LogMsg.noOutputUrl, by simp, rfl⟩
                  | some l =>
                    cases l with
                    | nil =>
                      simp only [generate_video, hc2, Bool.true_eq_false, if_false, hp,
                        ht, if_true, Option.some.injEq] at hgen
                      subst hgen
                      exact ⟨LogMsg.noOutputUrl, by simp, rfl⟩
                    | cons u us =>
                      by_cases hu : u.isEmpty = true
                      · simp only [generate_video, hc2, Bool.true_eq_false, if_false,
                          hp, ht, hu, if_true, Option.some.injEq] at hgen
                        subst hgen
                        exact ⟨LogMsg.noVideoUrlInOutput, by simp, rfl⟩
                      · have hu2 : u.isEmpty = false := by simpa using hu
                        cases dl with
                        | ok =>
                          simp only [generate_video, hc2, Bool.true_eq_false,
                            Bool.false_eq_true, if_false, hp, ht, hu2, if_true,
                            download_video, Option.some.injEq] at hgen
                          subst hgen
                          exact absurd (by simp) hnc
                        | reqError =>
                          simp only [generate_video, hc2, Bool.true_eq_false,
                            Bool.false_eq_true, if_false, hp, ht, hu2, if_true,
                            download_video, Option.some.injEq] at hgen
                          subst hgen
                          exact ⟨LogMsg.failedToDownload, by simp, rfl⟩
                        | streamError =>
                          simp only [generate_video, hc2, Bool.true_eq_false,
                            Bool.false_eq_true, if_false, hp, ht, hu2, if_true,
                            download_video, Option.some.injEq] at hgen
                          subst hgen
                          exact ⟨LogMsg.failedToDownload, by simp, rfl⟩
                · have ht2 : (t == "SUCCEEDED") = false := by simpa using ht
                  simp only [generate_video, hc2, Bool.true_eq_false,
                    Bool.false_eq_true, if_false, hp, ht2, Option.some.injEq] at hgen
                  subst hgen
                  exact ⟨LogMsg.taskFailed, by simp, rfl⟩
  · intro items hread
    induction items with
    | nil => exact ⟨rfl, rfl⟩
    | cons e rest ih =>
      have hrest := ih (fun x hx => hread x (List.mem_cons_of_mem _ hx))
      have he := hread e (List.mem_cons_self _ _)
      obtain ⟨ir2, api, sv⟩ := e
      simp only at he
      cases ir2 with
      | none => exact absurd rfl he
      | some v =>
        have hpp : (process_photo ⟨some v, api, sv⟩).isSome = true := by
          cases api with
          | none => rfl
          | some c =>
            cases c with
            | none => rfl
            | some s =>
              by_cases hs : s.isEmpty = true
              · simp [process_photo, get_image_prompt, hs]
              · have hs2 : s.isEmpty = false := by simpa using hs
                cases sv <;>
                  simp [process_photo, get_image_prompt, save_prompt, hs2]
        obtain ⟨pr2, hpr2⟩ := Option.isSome_iff_exists.mp hpp
        refine ⟨?_, ?_⟩ <;> simp [process_photos, hpr2, hrest.1, hrest.2]
  · intro e r hpp hapi
    obtain ⟨ir2, api, sv⟩ := e
    simp only at hapi
    subst hapi
    cases ir2 with
    | none => exact Option.noConfusion hpp
    | some v =>
      simp only [process_photo, get_image_prompt, Option.some.injEq] at hpp
      subst hpp
      simp
  · intro e r s hpp hapi hse hsv
    obtain ⟨ir2, api, sv⟩ := e
    simp only at hapi hsv
    subst hapi hsv
    cases ir2 with
    | none => exact Option.noConfusion hpp
    | some v =>
      simp only [process_photo, get_image_prompt, save_prompt, hse,
        Bool.false_eq_true, if_false, Option.some.injEq] at hpp
      subst hpp
      simp
  · intro e rest he
    obtain ⟨ir2, api, sv⟩ := e
    simp only at he
    subst he
    rfl

/-- Witness for the amended C3 at concrete one-item batches, a failed
video item, a vision-API failure, a save failure, and a concrete aborting
prompt batch. -/
theorem per_item_isolation_amended_witness :
    (∃ l, process_all_prompts
        [(⟨"clip_prompt", none, [], none, none, ["FAILED"], none,
          DlOutcome.ok⟩, FileState.absent)] = some l ∧ l.length = 1) ∧
    (∃ m ∈ (⟨[LogMsg.creatingTask, LogMsg.waitingForTask, LogMsg.taskFailed],
        FileState.absent, true, false⟩ : ItemResult).logs, m.isError = true) ∧
    ((process_photos [⟨some "i", some none, true⟩]).1.length = 1 ∧
      (process_photos [⟨some "i", some none, true⟩]).2 = true) ∧
    PLog.errGenerating ∈
      (⟨[PLog.processing, PLog.errGenerating], false⟩ : PItemResult).logs ∧
    PLog.errSaving ∈
      (⟨[PLog.processing, PLog.errSaving], false⟩ : PItemResult).logs ∧
    process_photos [⟨none, none, true⟩, ⟨some "i", some (some "text"), true⟩] =
      ([], false) :=
  ⟨per_item_isolation_amended.1 _ (by decide),
   per_item_isolation_amended.2.1
     ⟨"clip_prompt", some "p", ["input-photos/clip.jpg"], some "b", some "t",
      ["FAILED"], none, DlOutcome.ok⟩ FileState.absent
     ⟨[LogMsg.creatingTask, LogMsg.waitingForTask, LogMsg.taskFailed],
      FileState.absent, true, false⟩ (by decide) (by decide),
   per_item_isolation_amended.2.2.1 _ (by decide),
   per_item_isolation_amended.2.2.2.1 ⟨some "i", none, true⟩
     ⟨[PLog.processing, PLog.errGenerating], false⟩ (by decide) rfl,
   per_item_isolation_amended.2.2.2.2.1 ⟨some "i", some (some "text"), false⟩
     ⟨[PLog.processing, PLog.errSaving], false⟩ "text" (by decide) rfl
     (by decide) rfl,
   per_item_isolation_amended.2.2.2.2.2 ⟨none, none, true⟩
     [⟨some "i", some (some "text"), true⟩] rfl⟩

/-- Counterexample to C8 as stated: a vision call that succeeds but
returns the empty string writes no prompt file, because `if prompt:`
treats the empty string as falsy. -/
theorem prompt_file_on_success_counterexample :
    ¬ (∀ e r, process_photo e = some r →
        ((∃ c, e.apiResult = some c) → r.fileWritten = true) ∧
        (e.apiResult = none → r.fileWritten = false)) := by
  intro h
  have h1 := h ⟨some "i", some (some ""), true⟩ ⟨[PLog.processing], false⟩ (by decide)
  exact absurd (h1.1 ⟨some "", rfl⟩) (by decide)

/-- C8 (amended): when the image encodes successfully, a prompt file
`<name>_prompt.txt` is written iff the vision call succeeds with non-empty
text content and the file write succeeds; in particular an API failure
produces no file. -/
theorem prompt_file_iff_success_nonempty (e : PEnv) (r : PItemResult)
    (v : String) (hv : e.imageRead = some v)
    (hpp : process_photo e = some r) :
    (r.fileWritten = true ↔
      ∃ s, e.apiResult = some (some s) ∧ s.isEmpty = false ∧ e.saveOk = true) ∧
    (e.apiResult = none → r.fileWritten = false) := by
  obtain ⟨ir2, api, sv⟩ := e
  simp only at hv hpp ⊢
  subst hv
  cases api with
  | none =>
    simp only [process_photo, get_image_prompt, Option.some.injEq] at hpp
    subst hpp
    refine ⟨?_, fun _ => rfl⟩
    constructor
    · intro hf
      exact absurd hf (by decide)
    · rintro ⟨s, hs, -, -⟩
      exact Option.noConfusion hs
  | some c =>
    cases c with
    | none =>
      simp only [process_photo, get_image_prompt, Option.some.injEq] at hpp
      subst hpp
      refine ⟨?_, fun _ => rfl⟩
      constructor
      · intro hf
        exact absurd hf (by decide)
      · rintro ⟨s, hs, -, -⟩
        simp at hs
    | some s =>
      by_cases hs : s.isEmpty = true
      · simp only [process_photo, get_image_prompt, hs, if_true,
          Option.some.injEq] at hpp
        subst hpp
        refine ⟨?_, fun hn => Option.noConfusion hn⟩
        constructor
        · intro hf
          exact absurd hf (by decide)
        · rintro ⟨s2, hs2, hemp, -⟩
          simp only [Option.some.injEq] at hs2
          subst hs2
          rw [hs] at hemp
          exact Bool.noConfusion hemp
      · have hs2 : s.isEmpty = false := by simpa using hs
        cases sv with
        | false =>
          simp only [process_photo, get_image_prompt, save_prompt, hs2,
            Bool.false_eq_true, if_false, Option.some.injEq] at hpp
          subst hpp
          refine ⟨?_, fun hn => Option.noConfusion hn⟩
          constructor
          · intro hf
            exact absurd hf (by decide)
          · rintro ⟨s3, hs3, -, hsv⟩
            exact Bool.noConfusion hsv
        | true =>
          simp only [process_photo, get_image_prompt, save_prompt, hs2,
            Bool.false_eq_true, if_false, if_true, Option.some.injEq] at hpp
          subst hpp
          exact ⟨⟨fun _ => ⟨s, rfl, hs2, rfl⟩, fun _ => rfl⟩,
            fun hn => Option.noConfusion hn⟩

/-- Witness for the amended C8 at a concrete successful item. -/
theorem prompt_file_iff_success_nonempty_witness :
    ((⟨[PLog.processing, PLog.saved], true⟩ : PItemResult).fileWritten = true ↔
      ∃ s, (some (some "text") : Option (Option String)) = some (some s) ∧
        s.isEmpty = false ∧ true = true) ∧
    ((some (some "text") : Option (Option String)) = none →
      (⟨[PLog.processing, PLog.saved], true⟩ : PItemResult).fileWritten = false) :=
  prompt_file_iff_success_nonempty ⟨some "i", some (some "text"), true⟩
    ⟨[PLog.processing, PLog.saved], true⟩ "i" rfl (by decide)
